import Mathlib

/-!
Verification of the property-set pipeline of `packages/ember-metal/lib/property_set.ts`
(`set`, `setPath`, `trySet`, `setWithMandatorySetter`, `makeEnumerable`).

Modelling conventions:
* JavaScript values are the inductive `Val`; `NaN` is a distinct constructor so that
  strict (in)equality `===` / `!==` is modelled faithfully (`NaN !== NaN`).
* Objects live in a `Heap` keyed by numeric ids; a `Val.ref` is a reference.
  Each object carries its own property slots, inherited (prototype) properties,
  its `isDestroyed` flag, its `setUnknownProperty` / `getUnknownProperty`
  capabilities and its lazily created meta record.
* External collaborators (`descriptor.set`, `descriptor.setup`, `setUnknownProperty`,
  `notifyPropertyChange`, the deprecation report) are opaque calls; invoking one is
  recorded in an effect trace.  Descriptor `get` functions are modelled as returning
  a fixed value stored with the descriptor.
* The debug-build assertions of `@ember/debug` are modelled as raised errors, per the
  spec's error taxonomy (`InvalidArgument`, `DestroyedObjectError`,
  `PathResolutionError`).  The build flags `DEBUG` and `PROPERTY_BASED_DESCRIPTORS`
  are taken as true, matching the instrumented build the spec describes.
-/

namespace EmberSet

/-- JavaScript values, as far as the set pipeline observes them. -/
inductive Val where
  | undefined
  | null
  | boolean (b : Bool)
  | num (n : Int)
  | nan
  | str (s : String)
  | ref (id : Nat)
deriving DecidableEq, Repr

/-- `undefined` or `null`. -/
def Val.isNullish : Val → Bool
  | .undefined => true
  | .null => true
  | _ => false

/-- JavaScript strict equality `===` on modelled values: `NaN` is not equal to
anything, references compare by identity. -/
def strictEq : Val → Val → Bool
  | .nan, _ => false
  | _, .nan => false
  | a, b => a == b

/-- A property key as passed to `set`: a string, a number (possibly `NaN`), or a
value of some other type. -/
inductive JKey where
  | str (s : String)
  | num (n : Int)
  | nan
  | other
deriving DecidableEq, Repr

/-- The key check of `set` (line 59): `typeof keyName === 'string' ||
(typeof keyName === 'number' && !isNaN(keyName))`. -/
def JKey.isValid : JKey → Bool
  | .str _ => true
  | .num _ => true
  | .nan => false
  | .other => false

/-- The `'this' in paths is not supported` check (line 63): a string key starting
with `this.`. -/
def JKey.startsWithThis : JKey → Bool
  | .str s => s.startsWith "this."
  | _ => false

/-- The property name a key denotes when used for property access
(JavaScript coerces numeric keys to their decimal string). -/
def JKey.toPropertyKey : JKey → String
  | .str s => s
  | .num n => toString n
  | .nan => "NaN"
  | .other => ""

/-- An own-property slot of an object. `shim` records the getter shim installed by
the deprecated descriptor-upgrade path (the accessor delegating to the
descriptor's `get`); `mandatorySetter` records an installed mandatory-setter trap
(`desc.set.isMandatorySetter`). -/
structure PropSlot where
  value : Val
  enumerable : Bool
  mandatorySetter : Bool
  shim : Option Nat
deriving DecidableEq, Repr

/-- A computed-property descriptor, as an external collaborator: its `enumerable`
flag (which in JavaScript may be absent, modelled `none`), whether it has a
`setup` function, and the fixed value its `get` returns. -/
structure DescInfo where
  enumerable : Option Bool
  hasSetup : Bool
  getVal : Val
deriving DecidableEq, Repr

/-- The meta record of an object: watch counts and the descriptor registry
(descriptor ids per key). -/
structure MetaRec where
  watching : List (String × Nat)
  descriptors : List (String × Nat)
deriving DecidableEq, Repr

inductive ObjKind where
  | plain
  | func
deriving DecidableEq, Repr

/-- A heap object. `protoProps` are the inherited (prototype-chain) properties;
`getUnknownVal` is `some r` when the object exposes `getUnknownProperty`
returning `r`. -/
structure JSObj where
  kind : ObjKind
  isDestroyed : Bool
  props : List (String × PropSlot)
  protoProps : List (String × Val)
  hasSetUnknownProperty : Bool
  getUnknownVal : Option Val
  metaR : Option MetaRec
deriving DecidableEq, Repr

/-- The heap: objects and descriptor objects by id. -/
structure Heap where
  objs : List (Nat × JSObj)
  descs : List (Nat × DescInfo)
deriving DecidableEq, Repr

/-- Association-list lookup. -/
def alookup {α β : Type} [DecidableEq α] (k : α) : List (α × β) → Option β
  | [] => none
  | (k2, v) :: rest => if k2 = k then some v else alookup k rest

/-- Association-list update (replace, or append when absent). -/
def aset {α β : Type} [DecidableEq α] (k : α) (v : β) : List (α × β) → List (α × β)
  | [] => [(k, v)]
  | (k2, v2) :: rest => if k2 = k then (k, v) :: rest else (k2, v2) :: aset k v rest

theorem alookup_aset_self {α β : Type} [DecidableEq α] (k : α) (v : β) (l : List (α × β)) :
    alookup k (aset k v l) = some v := by
  induction l with
  | nil => simp [aset, alookup]
  | cons p rest ih =>
    by_cases hk : p.1 = k
    · simp [aset, alookup, hk]
    · simp [aset, alookup, hk, ih]

def Heap.obj? (h : Heap) (id : Nat) : Option JSObj := alookup id h.objs

def Heap.desc? (h : Heap) (id : Nat) : Option DescInfo := alookup id h.descs

/-- Replace the object stored at `id`. -/
def Heap.setObj (h : Heap) (id : Nat) (o : JSObj) : Heap :=
  { h with objs := aset id o h.objs }

theorem obj?_setObj_self (h : Heap) (id : Nat) (o : JSObj) :
    (h.setObj id o).obj? id = some o := by
  simp [Heap.setObj, Heap.obj?, alookup_aset_self]

theorem descs_setObj (h : Heap) (id : Nat) (o : JSObj) :
    (h.setObj id o).descs = h.descs := rfl

def JSObj.ownSlot (o : JSObj) (k : String) : Option PropSlot := alookup k o.props

/-- `obj.isDestroyed` (line 68), read through the heap. -/
def objIsDestroyed (h : Heap) (oid : Nat) : Bool :=
  match h.obj? oid with
  | some o => o.isDestroyed
  | none => false

/-- `'object' === typeof obj` (line 131). -/
def objKindIsPlain (h : Heap) (oid : Nat) : Bool :=
  match h.obj? oid with
  | some o => o.kind == .plain
  | none => false

/-- `typeof obj.setUnknownProperty === 'function'` (line 133). -/
def objHasSetUnknown (h : Heap) (oid : Nat) : Bool :=
  match h.obj? oid with
  | some o => o.hasSetUnknownProperty
  | none => false

/-- `keyName in obj` (line 132): own or inherited property. -/
def Heap.keyIn (h : Heap) (oid : Nat) (k : String) : Bool :=
  match h.obj? oid with
  | some o => (o.ownSlot k).isSome || (alookup k o.protoProps).isSome
  | none => false

/-- The raw property read `obj[keyName]` (line 92): an own slot first (a getter
shim delegates to its descriptor's `get`), then the prototype chain, else
`undefined`. -/
def Heap.rawGet (h : Heap) (oid : Nat) (k : String) : Val :=
  match h.obj? oid with
  | some o =>
    match o.ownSlot k with
    | some slot =>
      match slot.shim with
      | some d =>
        match h.desc? d with
        | some di => di.getVal
        | none => .undefined
      | none => slot.value
    | none =>
      match alookup k o.protoProps with
      | some v => v
      | none => .undefined
  | none => .undefined

/-- The slot produced by the raw assignment `obj[k] = v`: an existing own slot
keeps its attributes, a fresh own data property is enumerable. -/
def writeSlot (o : JSObj) (k : String) (v : Val) : PropSlot :=
  match o.ownSlot k with
  | some s => { s with value := v }
  | none => { value := v, enumerable := true, mandatorySetter := false, shim := none }

/-- The raw assignment `obj[keyName] = value` (lines 143 and 160). -/
def Heap.rawWrite (h : Heap) (oid : Nat) (k : String) (v : Val) : Heap :=
  match h.obj? oid with
  | some o => h.setObj oid { o with props := aset k (writeSlot o k v) o.props }
  | none => h

/-- `peekMeta(obj)` (line 138). -/
def peekMeta (h : Heap) (oid : Nat) : Option MetaRec :=
  match h.obj? oid with
  | some o => o.metaR
  | none => none

/-- `descriptorFor(obj, keyName)` (line 80): the descriptor registered in the
object's meta for this key. -/
def descriptorFor (h : Heap) (oid : Nat) (k : String) : Option Nat :=
  match peekMeta h oid with
  | some m => alookup k m.descriptors
  | none => none

/-- `isDescriptor(currentValue)` (line 95), returning the descriptor's id when the
value is a reference to a descriptor object. -/
def descOfVal (h : Heap) : Val → Option Nat
  | .ref i => if (h.desc? i).isSome then some i else none
  | _ => none

/-- `meta.peekWatching(keyName)` (line 156). -/
def MetaRec.peekWatching (m : MetaRec) (k : String) : Nat :=
  match alookup k m.watching with
  | some n => n
  | none => 0

/-- `makeEnumerable` (lines 164-171): when the key's own-property descriptor is a
mandatory-setter trap, redefine it as enumerable. -/
def makeEnumerable (h : Heap) (oid : Nat) (k : String) : Heap :=
  match h.obj? oid with
  | some o =>
    match o.ownSlot k with
    | some s =>
      if s.mandatorySetter then
        h.setObj oid { o with props := aset k { s with enumerable := true } o.props }
      else h
    | none => h
  | none => h

/-- Modelled from the spec: `meta.writeValue` of `ember-meta` (not under `src/`):
the Meta Store's value-write operation, which "performs the assignment and keeps
meta bookkeeping consistent". -/
def metaWriteValue (h : Heap) (oid : Nat) (k : String) (v : Val) : Heap :=
  h.rawWrite oid k v

/-- The observable external calls the set pipeline makes, in order. -/
inductive Effect where
  | descSet (descId oid : Nat) (key : String) (v : Val)
  | descSetup (descId oid : Nat) (key : String)
  | setUnknown (oid : Nat) (key : String) (v : Val)
  | notify (oid : Nat) (key : String)
  | rawWrite (oid : Nat) (key : String) (v : Val)
  | metaWrite (oid : Nat) (key : String) (v : Val)
  | deprecation (id : String)
deriving DecidableEq, Repr

/-- `setWithMandatorySetter` (lines 155-162): when a meta exists and the key is
watched, flip a mandatory-setter trap back to enumerable and write through the
Meta Store; otherwise an ordinary raw assignment. -/
def setWithMandatorySetter (h : Heap) (m : Option MetaRec) (oid : Nat) (k : String)
    (v : Val) : Heap × List Effect :=
  match m with
  | some mr =>
    if mr.peekWatching k > 0 then
      (metaWriteValue (makeEnumerable h oid k) oid k v, [.metaWrite oid k v])
    else
      (h.rawWrite oid k v, [.rawWrite oid k v])
  | none => (h.rawWrite oid k v, [.rawWrite oid k v])

/-- The errors `set` can raise (the debug assertions and the path-resolution
throw), per the spec's error taxonomy. -/
inductive SetError where
  | invalidArgument
  | destroyedObject
  | pathResolution
  | emptyPath
deriving DecidableEq, Repr

abbrev SetResult := Except SetError (Val × Heap × List Effect)

/-- JavaScript `path.split('.')` on the character list: splitting accumulator. -/
def splitDotsAux : List Char → List Char → List (List Char)
  | [], acc => [acc.reverse]
  | c :: rest, acc =>
    if c = '.' then acc.reverse :: splitDotsAux rest []
    else splitDotsAux rest (c :: acc)

/-- JavaScript `path.split('.')` (line 175 `path.split('.')` and the split inside
`_getPath`). -/
def jsSplitDots (s : String) : List String :=
  (splitDotsAux s.toList []).map String.mk

theorem splitDotsAux_ne_nil (cs acc : List Char) : splitDotsAux cs acc ≠ [] := by
  induction cs generalizing acc with
  | nil => simp [splitDotsAux]
  | cons c rest ih =>
    by_cases hc : c = '.'
    · simp [splitDotsAux, hc]
    · simp [splitDotsAux, hc]
      exact ih _

theorem jsSplitDots_ne_nil (s : String) : jsSplitDots s ≠ [] := by
  simp [jsSplitDots]
  exact splitDotsAux_ne_nil _ _

/-- No element produced by the splitter contains the separator. -/
theorem splitDotsAux_no_dot (cs : List Char) :
    ∀ acc, ('.' ∈ acc → False) → ∀ l ∈ splitDotsAux cs acc, '.' ∈ l → False := by
  induction cs with
  | nil =>
    intro acc hacc l hl hmem
    simp [splitDotsAux] at hl
    subst hl
    exact hacc (List.mem_reverse.mp hmem)
  | cons c rest ih =>
    intro acc hacc l hl hmem
    by_cases hc : c = '.'
    · simp [splitDotsAux, hc] at hl
      rcases hl with hl | hl
      · subst hl
        exact hacc (List.mem_reverse.mp hmem)
      · exact ih [] (by simp) l hl hmem
    · simp [splitDotsAux, hc] at hl
      refine ih (c :: acc) ?_ l hl hmem
      intro hd
      rcases List.mem_cons.mp hd with hd | hd
      · exact hc hd.symm
      · exact hacc hd

theorem getLastD_mem {α : Type} (l : List α) (d : α) (h : l ≠ []) : l.getLastD d ∈ l := by
  induction l with
  | nil => exact absurd rfl h
  | cons a as ih =>
    cases as with
    | nil => simp [List.getLastD]
    | cons b bs =>
      have := ih (by simp)
      simpa [List.getLastD] using Or.inr this

/-- A JavaScript whitespace character, as far as `trim` is concerned. -/
def isJsWhitespace (c : Char) : Bool :=
  c = ' ' || c = '\t' || c = '\n' || c = '\r'

/-- JavaScript `String.prototype.trim` (`keyName.trim()`, line 178): strip leading
and trailing whitespace. -/
def jsTrim (s : String) : String :=
  String.mk (((s.toList.dropWhile isJsWhitespace).reverse.dropWhile isJsWhitespace).reverse)

/-- Modelled from the spec: `isPath` of `path_cache` (not under `src/`):
"Returns true iff `key` contains at least one `.` separator." -/
def isPath (s : String) : Bool := decide ('.' ∈ s.toList)

/-- The last segment returned by the splitter contains no dot. -/
theorem jsSplitDots_getLastD_no_dot (p : String) :
    isPath ((jsSplitDots p).getLastD "") = false := by
  have hmem : (jsSplitDots p).getLastD "" ∈ jsSplitDots p :=
    getLastD_mem _ _ (jsSplitDots_ne_nil p)
  rcases List.mem_map.mp hmem with ⟨l, hl, hs⟩
  have hnd : '.' ∈ l → False := splitDotsAux_no_dot _ [] (by simp) l hl
  have hdata : ((jsSplitDots p).getLastD "").toList = l := by
    rw [← hs]
    rfl
  unfold isPath
  rw [hdata]
  exact decide_eq_false hnd

/-- Modelled from the spec: the simple-key Get Pipeline (`get` of `property_get`,
not under `src/`): consult the Descriptor Registry first (a registered
descriptor's `get` result is modelled as its fixed `getVal`); else read the raw
property; if that is nullish and the object exposes `getUnknownProperty`, return
its result; a read on a non-object yields `undefined`. -/
def getSimple (h : Heap) (v : Val) (k : String) : Val :=
  match v with
  | .ref oid =>
    match descriptorFor h oid k with
    | some d =>
      match h.desc? d with
      | some di => di.getVal
      | none => .undefined
    | none =>
      let raw := h.rawGet oid k
      if raw.isNullish then
        match h.obj? oid with
        | some o =>
          match o.getUnknownVal with
          | some r => r
          | none => raw
        | none => raw
      else raw
  | _ => .undefined

/-- Modelled from the spec: path resolution of `_getPath` (`property_get`, not
under `src/`): resolve segments left to right through the simple-key get,
returning a nullish intermediate result without resolving further. -/
def getPathParts (h : Heap) (v : Val) : List String → Val
  | [] => v
  | p :: rest =>
    let r := getSimple h v p
    if r.isNullish then r else getPathParts h r rest

/-- Modelled from the spec: `_getPath(root, path)` (`property_get`, not under
`src/`). -/
def getPath (h : Heap) (root : Val) (path : String) : Val :=
  getPathParts h root (jsSplitDots path)

/-- The routing test of lines 129-134: `currentValue === undefined &&
'object' === typeof obj && !(keyName in obj) &&
typeof obj.setUnknownProperty === 'function'`. -/
def unknownRouting (h : Heap) (oid : Nat) (k : String) (cv : Val) : Bool :=
  cv == .undefined && objKindIsPlain h oid && !(h.keyIn oid k) && objHasSetUnknown h oid

/-- The getter-shim definition of the deprecated upgrade path (lines 111-117):
`Object.defineProperty(obj, keyName, { configurable: true,
enumerable: cv.enumerable === false, get() { return cv.get(this, keyName); } })`. -/
def definePropertyShim (h : Heap) (oid : Nat) (k : String) (did : Nat) (di : DescInfo) :
    Heap :=
  match h.obj? oid with
  | some o =>
    h.setObj oid
      { o with
        props :=
          aset k
            { value := .undefined, enumerable := di.enumerable == some false,
              mandatorySetter := false, shim := some did }
            o.props }
  | none => h

/-- `meta(obj).writeDescriptors(keyName, cv)` (line 119): register the descriptor
in the object's meta, creating the meta on demand. -/
def writeDescriptors (h : Heap) (oid : Nat) (k : String) (did : Nat) : Heap :=
  match h.obj? oid with
  | some o =>
    let m :=
      match o.metaR with
      | some m => m
      | none => ({ watching := [], descriptors := [] } : MetaRec)
    h.setObj oid { o with metaR := some { m with descriptors := aset k did m.descriptors } }
  | none => h

/-- The simple-key body of `set` (lines 80-151): descriptor dispatch, the
deprecated descriptor-upgrade path, unknown-property routing, and the raw write
with change notification. -/
def setSimpleBody (h : Heap) (oid : Nat) (k : String) (value : Val) :
    Val × Heap × List Effect :=
  match descriptorFor h oid k with
  | some d => (value, h, [.descSet d oid k value])
  | none =>
    let currentValue := h.rawGet oid k
    match descOfVal h currentValue with
    | some did =>
      let di :=
        match h.desc? did with
        | some di => di
        | none => ({ enumerable := none, hasSetup := false, getVal := .undefined } : DescInfo)
      let h1 := definePropertyShim h oid k did di
      let h2 := writeDescriptors h1 oid k did
      (value, h2,
        .deprecation "ember-meta.descriptor-on-object" ::
          (if di.hasSetup then [Effect.descSetup did oid k] else []) ++
            [Effect.descSet did oid k value])
    | none =>
      if unknownRouting h oid k currentValue then
        (value, h, [.setUnknown oid k value])
      else
        let m := peekMeta h oid
        let r := setWithMandatorySetter h m oid k value
        (value, r.1,
          if strictEq currentValue value then r.2 else r.2 ++ [Effect.notify oid k])

/-- `set` (lines 50-152), structured on a fuel bound: the only recursion of the
source is `set → setPath → set`, and the recursive call's key is a segment
produced by splitting on `.`, so it contains no dot and never recurses again;
`set` below supplies fuel exceeding the key's dot count, which is always enough.
The body of `setPath` (lines 174-188) is inlined at its single call site. -/
def setF : Nat → Heap → Val → JKey → Val → Bool → SetResult
  | 0, _, _, _, _, _ => .error .invalidArgument
  | n + 1, h, obj, key, value, tolerant =>
    match obj with
    | .ref oid =>
      if key.isValid = false then .error .invalidArgument
      else if key.startsWithThis = true then .error .invalidArgument
      else if objIsDestroyed h oid = true then
        if tolerant then .ok (.undefined, h, []) else .error .destroyedObject
      else if isPath key.toPropertyKey = true then
        let parts := jsSplitDots key.toPropertyKey
        let keyName := parts.getLastD ""
        if (jsTrim keyName).length = 0 then .error .emptyPath
        else
          let newRoot := getPath h (.ref oid) (String.intercalate "." parts.dropLast)
          if newRoot.isNullish = false then setF n h newRoot (.str keyName) value false
          else if tolerant then .ok (.undefined, h, [])
          else .error .pathResolution
      else .ok (setSimpleBody h oid key.toPropertyKey value)
    | _ => .error .invalidArgument

/-- `set(obj, keyName, value, tolerant)` (line 50). -/
def set (h : Heap) (obj : Val) (key : JKey) (value : Val) (tolerant : Bool) : SetResult :=
  setF (key.toPropertyKey.toList.count '.' + 1) h obj key value tolerant

/-- `trySet(root, path, value)` (lines 212-214): `set(root, path, value, true)`. -/
def trySet (h : Heap) (root : Val) (path : JKey) (value : Val) : SetResult :=
  set h root path value true

/-- The object check of `set` (line 55): `(obj && typeof obj === 'object') ||
typeof obj === 'function'`; on modelled values exactly the references satisfy it
(`null` is falsy, the other primitives are neither objects nor functions). -/
def isObjectOrFunction : Val → Bool
  | .ref _ => true
  | _ => false

/-- The fuel supplied to `setF` is irrelevant on a non-path key, since the only
recursive branch is guarded by `isPath`. -/
theorem setF_fuel_irrel (n m : Nat) (h : Heap) (obj : Val) (key : JKey) (v : Val)
    (t : Bool) (hnp : isPath key.toPropertyKey = false) :
    setF (n + 1) h obj key v t = setF (m + 1) h obj key v t := by
  cases obj <;> simp [setF, hnp]

theorem set_nonref (h : Heap) (obj : Val) (key : JKey) (v : Val) (t : Bool)
    (ho : isObjectOrFunction obj = false) : set h obj key v t = .error .invalidArgument := by
  cases obj <;> simp_all [isObjectOrFunction, set, setF]

theorem set_invalid_key (h : Heap) (oid : Nat) (key : JKey) (v : Val) (t : Bool)
    (hk : key.isValid = false) :
    set h (.ref oid) key v t = .error .invalidArgument := by
  simp [set, setF, hk]

theorem set_this_key (h : Heap) (oid : Nat) (key : JKey) (v : Val) (t : Bool)
    (ht : key.startsWithThis = true) :
    set h (.ref oid) key v t = .error .invalidArgument := by
  simp [set, setF, ht]

theorem set_destroyed_unfold (h : Heap) (oid : Nat) (key : JKey) (v : Val) (t : Bool)
    (hk : key.isValid = true) (ht : key.startsWithThis = false)
    (hd : objIsDestroyed h oid = true) :
    set h (.ref oid) key v t =
      if t then .ok (.undefined, h, []) else .error .destroyedObject := by
  simp [set, setF, hk, ht, hd]

theorem set_simple_unfold (h : Heap) (oid : Nat) (key : JKey) (v : Val) (t : Bool)
    (hk : key.isValid = true) (ht : key.startsWithThis = false)
    (hd : objIsDestroyed h oid = false) (hnp : isPath key.toPropertyKey = false) :
    set h (.ref oid) key v t = .ok (setSimpleBody h oid key.toPropertyKey v) := by
  simp [set, setF, hk, ht, hd, hnp]

theorem set_path_unfold (h : Heap) (oid : Nat) (key : JKey) (v : Val) (t : Bool)
    (hk : key.isValid = true) (ht : key.startsWithThis = false)
    (hd : objIsDestroyed h oid = false) (hp : isPath key.toPropertyKey = true) :
    set h (.ref oid) key v t =
      (let parts := jsSplitDots key.toPropertyKey
       let keyName := parts.getLastD ""
       if (jsTrim keyName).length = 0 then .error .emptyPath
       else
         let newRoot := getPath h (.ref oid) (String.intercalate "." parts.dropLast)
         if newRoot.isNullish = false then set h newRoot (.str keyName) v false
         else if t then .ok (.undefined, h, [])
         else .error .pathResolution) := by
  have hcv : key.toPropertyKey.toList.count '.' ≠ 0 := by
    have hmem : '.' ∈ key.toPropertyKey.toList := by
      have := hp
      unfold isPath at this
      exact of_decide_eq_true this
    have := List.count_pos_iff.mpr hmem
    omega
  rcases Nat.exists_eq_succ_of_ne_zero hcv with ⟨m, hm⟩
  have hlast : isPath ((jsSplitDots key.toPropertyKey).getLastD "") = false :=
    jsSplitDots_getLastD_no_dot key.toPropertyKey
  have hinner : ∀ root : Val,
      setF (key.toPropertyKey.toList.count '.') h root
        (.str ((jsSplitDots key.toPropertyKey).getLastD "")) v false =
      set h root (.str ((jsSplitDots key.toPropertyKey).getLastD "")) v false := by
    intro root
    rw [hm]
    unfold set
    exact setF_fuel_irrel m _ h root _ v false hlast
  conv_lhs => unfold set
  simp only [setF, hk, ht, hd, hp, hinner]
  simp

/-! Supporting lemmas about the heap operations. -/

/-- The key's own slot carries no getter shim (or there is no own slot), so a raw
write is read back by a raw read. -/
def shimFree (h : Heap) (oid : Nat) (k : String) : Bool :=
  match h.obj? oid with
  | some o =>
    match o.ownSlot k with
    | some s => s.shim == none
    | none => true
  | none => true

theorem writeSlot_value (o : JSObj) (k : String) (v : Val) :
    (writeSlot o k v).value = v := by
  unfold writeSlot
  split <;> rfl

theorem notify_not_mem_sWMS (h : Heap) (m : Option MetaRec) (oid : Nat) (k : String)
    (v : Val) (a : Nat) (b : String) :
    Effect.notify a b ∉ (setWithMandatorySetter h m oid k v).2 := by
  unfold setWithMandatorySetter
  rcases m with _ | mr
  · simp
  · by_cases hw : mr.peekWatching k > 0 <;> simp [hw]

/-- `makeEnumerable` only flips a mandatory-setter slot's enumerability: the object
is preserved except possibly that one attribute. -/
theorem makeEnumerable_obj (h : Heap) (oid : Nat) (k : String) (o : JSObj)
    (ho : h.obj? oid = some o) :
    ∃ o', (makeEnumerable h oid k).obj? oid = some o' ∧
      (makeEnumerable h oid k).descs = h.descs ∧
      o'.kind = o.kind ∧ o'.isDestroyed = o.isDestroyed ∧ o'.metaR = o.metaR ∧
      o'.hasSetUnknownProperty = o.hasSetUnknownProperty ∧
      o'.ownSlot k =
        (o.ownSlot k).map fun s =>
          if s.mandatorySetter then { s with enumerable := true } else s := by
  unfold makeEnumerable
  rw [ho]
  match hs : o.ownSlot k with
  | none =>
    exact ⟨o, by simp [ho, hs], by simp [hs], rfl, rfl, rfl, rfl, by simp [hs]⟩
  | some s =>
    by_cases hm : s.mandatorySetter
    · refine ⟨{ o with props := aset k { s with enumerable := true } o.props },
        ?_, ?_, rfl, rfl, rfl, rfl, ?_⟩
      · simp [hs, hm, obj?_setObj_self]
      · simp [hs, hm, descs_setObj]
      · simp [hs, hm, JSObj.ownSlot, alookup_aset_self]
    · exact ⟨o, by simp [ho, hs, hm], by simp [hs, hm], rfl, rfl, rfl, rfl,
        by simp [hs, hm]⟩

/-- A raw write stores the value in the own slot, preserving the slot's shim and
the object's other fields. -/
theorem rawWrite_obj (h : Heap) (oid : Nat) (k : String) (v : Val) (o : JSObj)
    (ho : h.obj? oid = some o) :
    ∃ o', (h.rawWrite oid k v).obj? oid = some o' ∧
      (h.rawWrite oid k v).descs = h.descs ∧
      o'.kind = o.kind ∧ o'.isDestroyed = o.isDestroyed ∧ o'.metaR = o.metaR ∧
      o'.hasSetUnknownProperty = o.hasSetUnknownProperty ∧
      o'.ownSlot k = some (writeSlot o k v) := by
  unfold Heap.rawWrite
  rw [ho]
  refine ⟨_, obj?_setObj_self .., descs_setObj .., rfl, rfl, rfl, rfl, ?_⟩
  simp [JSObj.ownSlot, alookup_aset_self]

/-- The write performed by `setWithMandatorySetter` stores the value in the own
slot; with no getter shim on the slot it reads back raw, and every other
observable of the object is preserved. -/
theorem sWMS_heap (h : Heap) (m : Option MetaRec) (oid : Nat) (k : String) (v : Val)
    (o : JSObj) (ho : h.obj? oid = some o) (hsf : shimFree h oid k = true) :
    ∃ o', ((setWithMandatorySetter h m oid k v).1).obj? oid = some o' ∧
      ((setWithMandatorySetter h m oid k v).1).descs = h.descs ∧
      o'.kind = o.kind ∧ o'.isDestroyed = o.isDestroyed ∧ o'.metaR = o.metaR ∧
      o'.hasSetUnknownProperty = o.hasSetUnknownProperty ∧
      ∃ s, o'.ownSlot k = some s ∧ s.value = v ∧ s.shim = none := by
  have hsf2 : ∀ s, o.ownSlot k = some s → s.shim = none := by
    intro s hs
    simp [shimFree, ho, hs] at hsf
    exact hsf
  have main : ∀ (h2 : Heap) (o2 : JSObj), h2.obj? oid = some o2 → h2.descs = h.descs →
      o2.kind = o.kind → o2.isDestroyed = o.isDestroyed → o2.metaR = o.metaR →
      o2.hasSetUnknownProperty = o.hasSetUnknownProperty →
      (∀ s, o2.ownSlot k = some s → s.shim = none) →
      ∃ o', ((h2.rawWrite oid k v).obj? oid = some o') ∧
        (h2.rawWrite oid k v).descs = h.descs ∧
        o'.kind = o.kind ∧ o'.isDestroyed = o.isDestroyed ∧ o'.metaR = o.metaR ∧
        o'.hasSetUnknownProperty = o.hasSetUnknownProperty ∧
        ∃ s, o'.ownSlot k = some s ∧ s.value = v ∧ s.shim = none := by
    intro h2 o2 ho2 hd2 hk2 hdd2 hm2 hu2 hshim2
    rcases rawWrite_obj h2 oid k v o2 ho2 with ⟨o', ho', hds', hk', hdd', hm', hu', hslot'⟩
    refine ⟨o', ho', hds'.trans hd2, hk'.trans hk2, hdd'.trans hdd2, hm'.trans hm2,
      hu'.trans hu2, writeSlot o2 k v, hslot', writeSlot_value .., ?_⟩
    unfold writeSlot
    match hs2 : o2.ownSlot k with
    | some s => exact hshim2 s hs2
    | none => rfl
  rcases m with _ | mr
  · exact main h o ho rfl rfl rfl rfl rfl hsf2
  · have hred : setWithMandatorySetter h (some mr) oid k v =
        if mr.peekWatching k > 0 then
          (metaWriteValue (makeEnumerable h oid k) oid k v, [Effect.metaWrite oid k v])
        else (h.rawWrite oid k v, [Effect.rawWrite oid k v]) := rfl
    rw [hred]
    by_cases hw : mr.peekWatching k > 0
    · rw [if_pos hw]
      rcases makeEnumerable_obj h oid k o ho with ⟨o2, ho2, hds2, hk2, hdd2, hm2, hu2, hslot2⟩
      simp only [metaWriteValue]
      refine main (makeEnumerable h oid k) o2 ho2 hds2 hk2 hdd2 hm2 hu2 ?_
      intro s hs
      rw [hslot2] at hs
      match hs0 : o.ownSlot k with
      | none => rw [hs0] at hs; simp at hs
      | some s0 =>
        rw [hs0] at hs
        rw [show ((some s0).map fun s =>
            if s.mandatorySetter = true then { s with enumerable := true } else s) =
            some (if s0.mandatorySetter = true then { s0 with enumerable := true } else s0)
          from rfl] at hs
        rw [Option.some_inj] at hs
        have hsh0 := hsf2 s0 hs0
        by_cases hms : s0.mandatorySetter
        · rw [if_pos hms] at hs
          rw [← hs]
          exact hsh0
        · rw [if_neg hms] at hs
          rw [← hs]
          exact hsh0
    · rw [if_neg hw]
      exact main h o ho rfl rfl rfl rfl rfl hsf2

/-- The key's own slot viewed through the heap. -/
def slotAttr (h : Heap) (oid : Nat) (k : String) : Option PropSlot :=
  match h.obj? oid with
  | some o => o.ownSlot k
  | none => none

/-- The own slot installed by the deprecated upgrade path: the getter shim defined
by `definePropertyShim`, unchanged by the subsequent `writeDescriptors`. -/
theorem shim_then_writeDescriptors_slot (h : Heap) (oid : Nat) (k : String) (did : Nat)
    (di : DescInfo) (o : JSObj) (ho : h.obj? oid = some o) :
    slotAttr (writeDescriptors (definePropertyShim h oid k did di) oid k did) oid k =
      some { value := .undefined, enumerable := di.enumerable == some false,
             mandatorySetter := false, shim := some did } := by
  unfold definePropertyShim
  rw [ho]
  unfold writeDescriptors
  rw [obj?_setObj_self]
  unfold slotAttr
  rw [obj?_setObj_self]
  simp [JSObj.ownSlot, alookup_aset_self]

/-! Concrete fixtures used by witnesses and counterexamples. -/

/-- A fresh data-property slot holding `v`. -/
def slotOf (v : Val) : PropSlot :=
  { value := v, enumerable := true, mandatorySetter := false, shim := none }

/-- A plain live object with no properties and no capabilities. -/
def objW : JSObj :=
  { kind := .plain, isDestroyed := false, props := [], protoProps := [],
    hasSetUnknownProperty := false, getUnknownVal := none, metaR := none }

/-- A sample descriptor. -/
def descW : DescInfo := { enumerable := none, hasSetup := false, getVal := .num 7 }

/-- Heap with one object whose meta registers descriptor `5` for key `x`. -/
def heapC1 : Heap :=
  { objs := [(0, { objW with metaR := some { watching := [], descriptors := [("x", 5)] } })],
    descs := [(5, descW)] }

/-- Heap with one destroyed object. -/
def heapC4 : Heap := { objs := [(0, { objW with isDestroyed := true })], descs := [] }

/-- Heap with one object exposing `setUnknownProperty`. -/
def heapC6 : Heap :=
  { objs := [(0, { objW with hasSetUnknownProperty := true })], descs := [] }

/-! The claims. -/

/-- C1: for every live object, simple valid key and value, when a Descriptor is
registered for `(obj, key)`, `set(obj, key, value)` invokes exactly
`descriptor.set(obj, key, value)` and returns `value`; the heap is unchanged (so
no raw write to the property slot occurs) and the effect trace is exactly that
one descriptor-set call (so the set pipeline itself fires no change
notification). -/
theorem C1_descriptor_set_dispatch (h : Heap) (oid d : Nat) (k : String) (v : Val)
    (t : Bool) (hth : (JKey.str k).startsWithThis = false)
    (hde : objIsDestroyed h oid = false) (hkp : isPath k = false)
    (hd : descriptorFor h oid k = some d) :
    set h (.ref oid) (.str k) v t = .ok (v, h, [.descSet d oid k v]) := by
  rw [set_simple_unfold h oid (.str k) v t rfl hth hde hkp]
  simp [setSimpleBody, JKey.toPropertyKey, hd]

/-- C1 witness: concrete run through the descriptor branch. -/
theorem C1_descriptor_set_dispatch_witness :
    set heapC1 (.ref 0) (.str "x") (.num 2) false =
      .ok (.num 2, heapC1, [.descSet 5 0 "x" (.num 2)]) :=
  C1_descriptor_set_dispatch heapC1 0 5 "x" (.num 2) false rfl rfl rfl rfl

/-- C4: for every destroyed object, valid key and value, `set` fails with the
destroyed-object error when `tolerant` is false, and with `tolerant` true it
returns `undefined` with the heap unchanged and no effects (no mutation, no
notification). -/
theorem C4_destroyed_guard (h : Heap) (oid : Nat) (key : JKey) (v : Val)
    (hk : key.isValid = true) (ht : key.startsWithThis = false)
    (hd : objIsDestroyed h oid = true) :
    set h (.ref oid) key v false = .error .destroyedObject ∧
    set h (.ref oid) key v true = .ok (.undefined, h, []) := by
  constructor
  · rw [set_destroyed_unfold h oid key v false hk ht hd]
    rfl
  · rw [set_destroyed_unfold h oid key v true hk ht hd]
    rfl

/-- C4 witness: concrete destroyed object. -/
theorem C4_destroyed_guard_witness :
    set heapC4 (.ref 0) (.str "x") (.num 1) false = .error .destroyedObject ∧
    set heapC4 (.ref 0) (.str "x") (.num 1) true = .ok (.undefined, heapC4, []) :=
  C4_destroyed_guard heapC4 0 (.str "x") (.num 1) rfl rfl rfl

/-- C6: for every live plain object exposing `setUnknownProperty`, and simple
valid key with no registered descriptor, when the current raw value is
`undefined` and the key is neither an own nor an inherited property, `set`
invokes `setUnknownProperty(key, value)` instead of writing the raw slot (the
heap is unchanged) and returns `value`. -/
theorem C6_unknown_property_routing (h : Heap) (oid : Nat) (o : JSObj) (k : String)
    (v : Val) (ho : h.obj? oid = some o) (hkind : o.kind = .plain)
    (hde : o.isDestroyed = false) (hth : (JKey.str k).startsWithThis = false)
    (hkp : isPath k = false) (hd : descriptorFor h oid k = none)
    (hcv : h.rawGet oid k = .undefined) (hin : h.keyIn oid k = false)
    (hs : o.hasSetUnknownProperty = true) :
    set h (.ref oid) (.str k) v false = .ok (v, h, [.setUnknown oid k v]) := by
  have hde2 : objIsDestroyed h oid = false := by simp [objIsDestroyed, ho, hde]
  rw [set_simple_unfold h oid (.str k) v false rfl hth hde2 hkp]
  have hroute : unknownRouting h oid k Val.undefined = true := by
    simp [unknownRouting, objKindIsPlain, ho, hkind, hin, objHasSetUnknown, hs]
  simp [setSimpleBody, JKey.toPropertyKey, hd, hcv, descOfVal, hroute]

/-- C6 witness: concrete run through the unknown-property branch. -/
theorem C6_unknown_property_routing_witness :
    set heapC6 (.ref 0) (.str "x") (.num 3) false =
      .ok (.num 3, heapC6, [.setUnknown 0 "x" (.num 3)]) :=
  C6_unknown_property_routing heapC6 0 { objW with hasSetUnknownProperty := true }
    "x" (.num 3) rfl rfl rfl rfl rfl rfl rfl rfl rfl

/-- C10: a `set` on a simple key that routes through the `setUnknownProperty`
hook never invokes `notifyPropertyChange` — even though the incoming value
differs from the current (`undefined`) value under strict inequality. -/
theorem C10_unknown_routing_no_notify (h : Heap) (oid : Nat) (o : JSObj) (k : String)
    (v : Val) (ho : h.obj? oid = some o) (hkind : o.kind = .plain)
    (hde : o.isDestroyed = false) (hth : (JKey.str k).startsWithThis = false)
    (hkp : isPath k = false) (hd : descriptorFor h oid k = none)
    (hcv : h.rawGet oid k = .undefined) (hin : h.keyIn oid k = false)
    (hs : o.hasSetUnknownProperty = true) :
    ∃ h1 effs, set h (.ref oid) (.str k) v false = .ok (v, h1, effs) ∧
      (∀ a b, Effect.notify a b ∉ effs) := by
  have hde2 : objIsDestroyed h oid = false := by simp [objIsDestroyed, ho, hde]
  rw [set_simple_unfold h oid (.str k) v false rfl hth hde2 hkp]
  have hroute : unknownRouting h oid k Val.undefined = true := by
    simp [unknownRouting, objKindIsPlain, ho, hkind, hin, objHasSetUnknown, hs]
  refine ⟨h, [.setUnknown oid k v], ?_, ?_⟩
  · simp [setSimpleBody, JKey.toPropertyKey, hd, hcv, descOfVal, hroute]
  · intro a b
    simp

/-- C10 witness: the concrete routed `set` fires no notification. -/
theorem C10_unknown_routing_no_notify_witness :
    ∃ h1 effs, set heapC6 (.ref 0) (.str "x") (.num 3) false = .ok (.num 3, h1, effs) ∧
      (∀ a b, Effect.notify a b ∉ effs) :=
  C10_unknown_routing_no_notify heapC6 0 { objW with hasSetUnknownProperty := true }
    "x" (.num 3) rfl rfl rfl rfl rfl rfl rfl rfl rfl

/-- C9: in the deprecated upgrade path (the current raw value is an unregistered
legacy Descriptor), the getter shim is installed with
`enumerable: cv.enumerable === false`: the shim slot's enumerable attribute is
set exactly when the descriptor's `enumerable` flag is literally `false`, and in
every other case (including the default `true` and the absent flag) the shim is
non-enumerable. -/
theorem C9_legacy_shim_enumerable (h : Heap) (oid did : Nat) (o : JSObj)
    (di : DescInfo) (k : String) (v : Val) (ho : h.obj? oid = some o)
    (hde : objIsDestroyed h oid = false) (hth : (JKey.str k).startsWithThis = false)
    (hkp : isPath k = false) (hd : descriptorFor h oid k = none)
    (hcv : h.rawGet oid k = .ref did) (hdi : h.desc? did = some di) :
    set h (.ref oid) (.str k) v false =
      .ok (v, writeDescriptors (definePropertyShim h oid k did di) oid k did,
        .deprecation "ember-meta.descriptor-on-object" ::
          (if di.hasSetup then [Effect.descSetup did oid k] else []) ++
            [Effect.descSet did oid k v]) ∧
    slotAttr (writeDescriptors (definePropertyShim h oid k did di) oid k did) oid k =
      some { value := .undefined, enumerable := di.enumerable == some false,
             mandatorySetter := false, shim := some did } := by
  constructor
  · rw [set_simple_unfold h oid (.str k) v false rfl hth hde hkp]
    simp [setSimpleBody, JKey.toPropertyKey, hd, hcv, descOfVal, hdi]
  · exact shim_then_writeDescriptors_slot h oid k did di o ho

/-- A legacy descriptor whose `enumerable` flag is literally `false`. -/
def descC9 : DescInfo := { enumerable := some false, hasSetup := true, getVal := .num 7 }

/-- Heap for the C9 witness: the raw value of `x` is the legacy descriptor `5`. -/
def heapC9 : Heap :=
  { objs := [(0, { objW with props := [("x", slotOf (.ref 5))] })],
    descs := [(5, descC9)] }

/-- C9 witness: the deprecated upgrade path at a concrete heap; the installed
shim is enumerable because `descC9.enumerable` is literally `false`. -/
theorem C9_legacy_shim_enumerable_witness :
    set heapC9 (.ref 0) (.str "x") (.num 1) false =
      .ok (.num 1, writeDescriptors (definePropertyShim heapC9 0 "x" 5 descC9) 0 "x" 5,
        .deprecation "ember-meta.descriptor-on-object" ::
          (if descC9.hasSetup then [Effect.descSetup 5 0 "x"] else []) ++
            [Effect.descSet 5 0 "x" (.num 1)]) ∧
    slotAttr (writeDescriptors (definePropertyShim heapC9 0 "x" 5 descC9) 0 "x" 5) 0 "x" =
      some { value := .undefined, enumerable := descC9.enumerable == some false,
             mandatorySetter := false, shim := some 5 } :=
  C9_legacy_shim_enumerable heapC9 0 5 { objW with props := [("x", slotOf (.ref 5))] }
    descC9 "x" (.num 1) rfl rfl rfl rfl rfl rfl rfl

/-- Heap with one plain empty live object. -/
def heapW : Heap := { objs := [(0, objW)], descs := [] }

/-- Heap for C3: object `0` holds `a` referencing object `1`, which is destroyed. -/
def heapC3 : Heap :=
  { objs := [(0, { objW with props := [("a", slotOf (.ref 1))] }),
             (1, { objW with isDestroyed := true })],
    descs := [] }

/-- C3: evaluation at the failing input.  The claim (and the doc comment of
`trySet`, lines 191-192) says `trySet` never raises the destroyed-object error
and silently returns `undefined` when the target is destroyed; but the recursive
call of `setPath` (line 184) passes no tolerant flag, so when an intermediate
link of the path resolves to a destroyed object the destroyed-object assertion
of the inner `set` fires and `trySet` raises. -/
theorem C3_trySet_destroyed_target_raises :
    trySet heapC3 (.ref 0) (.str "a.b") (.num 1) = .error .destroyedObject := rfl

/-- Heap after the C7 counterexample's raw write under key `-1`. -/
def heapC7After : Heap :=
  { objs := [(0, { objW with props := [("-1", slotOf (.num 5))] })], descs := [] }

/-- C7 counterexample: the claim says `set` fails with `InvalidArgument` unless
the key is a string or a non-negative-integer-like key; but the source check
(line 61) admits any non-NaN number, so the negative numeric key `-1` is
accepted and the write succeeds. -/
theorem C7_negative_number_key_accepted :
    set heapW (.ref 0) (.num (-1)) (.num 5) false =
      .ok (.num 5, heapC7After, [.rawWrite 0 "-1" (.num 5), .notify 0 "-1"]) := rfl

/-- C7 (amended): for a simple (non-path) key, `set` fails with `InvalidArgument`
exactly when the obj argument is not an object or function, the key is neither a
string nor a non-NaN number, or the key is a string beginning with `this.`.
(The arity condition is fixed by the call signature in the embedding; for path
keys the recursive `set` on the resolved root re-validates that root, so the
equivalence is stated for simple keys.) -/
theorem C7_invalid_argument_iff (h : Heap) (obj : Val) (key : JKey) (v : Val) (t : Bool)
    (hkp : isPath key.toPropertyKey = false) :
    (set h obj key v t = .error .invalidArgument) ↔
      (isObjectOrFunction obj = false ∨ key.isValid = false ∨
        key.startsWithThis = true) := by
  cases obj with
  | ref oid =>
    cases hk : key.isValid with
    | false =>
      rw [set_invalid_key h oid key v t hk]
      simp [isObjectOrFunction, hk]
    | true =>
      cases ht2 : key.startsWithThis with
      | true =>
        rw [set_this_key h oid key v t ht2]
        simp [isObjectOrFunction, ht2]
      | false =>
        cases hdd : objIsDestroyed h oid with
        | true =>
          rw [set_destroyed_unfold h oid key v t hk ht2 hdd]
          cases t <;> simp [isObjectOrFunction, hk, ht2]
        | false =>
          rw [set_simple_unfold h oid key v t hk ht2 hdd hkp]
          simp [isObjectOrFunction, hk, ht2]
  | undefined =>
    rw [set_nonref h (.undefined ..) key v t rfl]
    simp [isObjectOrFunction]
  | null =>
    rw [set_nonref h (.null ..) key v t rfl]
    simp [isObjectOrFunction]
  | boolean b =>
    rw [set_nonref h (.boolean ..) key v t rfl]
    simp [isObjectOrFunction]
  | num n =>
    rw [set_nonref h (.num ..) key v t rfl]
    simp [isObjectOrFunction]
  | nan =>
    rw [set_nonref h (.nan ..) key v t rfl]
    simp [isObjectOrFunction]
  | str s =>
    rw [set_nonref h (.str ..) key v t rfl]
    simp [isObjectOrFunction]

/-- C7 witness: a non-object receiver is rejected with `InvalidArgument`. -/
theorem C7_invalid_argument_iff_witness :
    (set heapW (.num 3) (.str "x") (.num 1) false = .error .invalidArgument) ↔
      (isObjectOrFunction (.num 3) = false ∨ (JKey.str "x").isValid = false ∨
        (JKey.str "x").startsWithThis = true) :=
  C7_invalid_argument_iff heapW (.num 3) (.str "x") (.num 1) false rfl

/-- C8: the mandatory-setter-aware write: when a meta exists and the watch count
for the key is positive, it first makes the key's own-property slot enumerable —
precisely when a mandatory-setter trap is installed on it, and not otherwise —
and then writes through the Meta Store's value-write operation; when the watch
count is zero or the meta is absent, it performs an ordinary raw assignment. -/
theorem C8_setWithMandatorySetter_spec (h : Heap) (m : Option MetaRec) (oid : Nat)
    (k : String) (v : Val) :
    (∀ mr, m = some mr → 0 < mr.peekWatching k →
      setWithMandatorySetter h m oid k v =
        (metaWriteValue (makeEnumerable h oid k) oid k v, [.metaWrite oid k v])) ∧
    (∀ mr, m = some mr → mr.peekWatching k = 0 →
      setWithMandatorySetter h m oid k v = (h.rawWrite oid k v, [.rawWrite oid k v])) ∧
    (m = none →
      setWithMandatorySetter h m oid k v = (h.rawWrite oid k v, [.rawWrite oid k v])) ∧
    (∀ o s, h.obj? oid = some o → o.ownSlot k = some s → s.mandatorySetter = true →
      slotAttr (makeEnumerable h oid k) oid k = some { s with enumerable := true }) ∧
    (∀ o s, h.obj? oid = some o → o.ownSlot k = some s → s.mandatorySetter = false →
      makeEnumerable h oid k = h) := by
  refine ⟨?_, ?_, ?_, ?_, ?_⟩
  · intro mr hm hw
    subst hm
    have hred : setWithMandatorySetter h (some mr) oid k v =
        if mr.peekWatching k > 0 then
          (metaWriteValue (makeEnumerable h oid k) oid k v, [Effect.metaWrite oid k v])
        else (h.rawWrite oid k v, [Effect.rawWrite oid k v]) := rfl
    rw [hred, if_pos hw]
  · intro mr hm hw
    subst hm
    have hred : setWithMandatorySetter h (some mr) oid k v =
        if mr.peekWatching k > 0 then
          (metaWriteValue (makeEnumerable h oid k) oid k v, [Effect.metaWrite oid k v])
        else (h.rawWrite oid k v, [Effect.rawWrite oid k v]) := rfl
    rw [hred, if_neg (by omega)]
  · intro hm
    subst hm
    rfl
  · intro o s ho hs hms
    simp only [makeEnumerable, ho, hs, hms, if_true]
    unfold slotAttr
    rw [obj?_setObj_self]
    simp [JSObj.ownSlot, alookup_aset_self]
  · intro o s ho hs hms
    simp only [makeEnumerable, ho, hs]
    simp [hms]

/-- A meta record watching key `x`. -/
def mrW : MetaRec := { watching := [("x", 1)], descriptors := [] }

/-- Heap for the C5 witness: object `0`'s `a` references the live object `1`. -/
def heapC5 : Heap :=
  { objs := [(0, { objW with props := [("a", slotOf (.ref 1))] }), (1, objW)],
    descs := [] }

/-- C5: for every dotted path key on a live object, `set` resolves all segments
but the last through the get pipeline to a root; if that root is nullish it
fails with the path-resolution error unless tolerant is set (then it returns
`undefined` with the heap unchanged and no effects); otherwise it recurses as
the plain three-argument `set(root, lastSegment, value)` — the tolerant flag is
not propagated past the first hop. -/
theorem C5_path_resolution (h : Heap) (oid : Nat) (p : String) (v : Val) (t : Bool)
    (hth : (JKey.str p).startsWithThis = false)
    (hde : objIsDestroyed h oid = false)
    (hp : isPath p = true)
    (hne : (jsTrim ((jsSplitDots p).getLastD "")).length ≠ 0) :
    set h (.ref oid) (.str p) v t =
      (let newRoot :=
        getPath h (.ref oid) (String.intercalate "." (jsSplitDots p).dropLast)
       if newRoot.isNullish = false then
         set h newRoot (.str ((jsSplitDots p).getLastD "")) v false
       else if t then .ok (.undefined, h, [])
       else .error .pathResolution) := by
  rw [set_path_unfold h oid (.str p) v t rfl hth hde hp]
  simp only [JKey.toPropertyKey]
  rw [if_neg hne]

/-- C5 witness: concrete two-segment path recursion into the resolved root. -/
theorem C5_path_resolution_witness :
    set heapC5 (.ref 0) (.str "a.b") (.num 2) false =
      (let newRoot :=
        getPath heapC5 (.ref 0) (String.intercalate "." (jsSplitDots "a.b").dropLast)
       if newRoot.isNullish = false then
         set heapC5 newRoot (.str ((jsSplitDots "a.b").getLastD "")) (.num 2) false
       else if false then .ok (.undefined, heapC5, [])
       else .error .pathResolution) :=
  C5_path_resolution heapC5 0 "a.b" (.num 2) false rfl rfl rfl (by decide)

/-- The first component of the simple-key body is always the incoming value. -/
theorem setSimpleBody_fst (h : Heap) (oid : Nat) (k : String) (v : Val) :
    (setSimpleBody h oid k v).1 = v := by
  simp only [setSimpleBody]
  split
  · rfl
  · split
    · rfl
    · split
      · rfl
      · rfl

/-- When no descriptor is registered and the current raw value is strictly equal
to the incoming value, the simple-key body fires no notification (whatever
branch it takes). -/
theorem notify_not_mem_setSimpleBody (h : Heap) (oid : Nat) (k : String) (v : Val)
    (hd : descriptorFor h oid k = none)
    (hcv : h.rawGet oid k = v) (hvv : strictEq v v = true) :
    Effect.notify oid k ∉ (setSimpleBody h oid k v).2.2 := by
  simp only [setSimpleBody, hd, hcv]
  rcases hdv : descOfVal h v with _ | did
  · simp only [hdv]
    by_cases hur : unknownRouting h oid k v = true
    · simp [hur]
    · have hurf : unknownRouting h oid k v = false := by
        revert hur
        cases unknownRouting h oid k v <;> simp
      simp [hurf, hvv, notify_not_mem_sWMS]
  · simp only [hdv]
    rcases hdid : h.desc? did with _ | di
    · simp [hdid]
    · by_cases hsu : di.hasSetup = true <;> simp [hdid, hsu]

/-- Heap after writing `NaN` to `x` on `heapW`'s object. -/
def heapNaN1 : Heap :=
  { objs := [(0, { objW with props := [("x", slotOf .nan)] })], descs := [] }

/-- C2 counterexample: an identical double-set of `NaN` fires change notification
twice.  JavaScript strict inequality holds between `NaN` and itself, so the
guard `currentValue !== value` (line 146) is also true on the second, identical
call, refuting "the second call does not fire". -/
theorem C2_nan_double_set_notifies_twice :
    set heapW (.ref 0) (.str "x") .nan false =
      .ok (.nan, heapNaN1, [.rawWrite 0 "x" .nan, .notify 0 "x"]) ∧
    set heapNaN1 (.ref 0) (.str "x") .nan false =
      .ok (.nan, heapNaN1, [.rawWrite 0 "x" .nan, .notify 0 "x"]) :=
  ⟨rfl, rfl⟩

/-- C2 (amended): for a live object and simple valid key with no registered
descriptor, no legacy descriptor as current value and no unknown-property
routing: (a) `set` succeeds and fires change notification exactly when the new
value differs from the current raw value under strict inequality; (b) provided
the value is strictly equal to itself (every value except `NaN`) and the slot
carries no legacy getter shim, a second identical `set` fires no notification —
so notification happens at most once across the two calls.  (For `NaN` the
second call does fire, as the counterexample shows.) -/
theorem C2_notify_iff_changed (h : Heap) (oid : Nat) (o : JSObj) (k : String) (v : Val)
    (ho : h.obj? oid = some o) (hde : o.isDestroyed = false)
    (hth : (JKey.str k).startsWithThis = false) (hkp : isPath k = false)
    (hd : descriptorFor h oid k = none)
    (hleg : descOfVal h (h.rawGet oid k) = none)
    (hroute : unknownRouting h oid k (h.rawGet oid k) = false) :
    ∃ h1 effs, set h (.ref oid) (.str k) v false = .ok (v, h1, effs) ∧
      (Effect.notify oid k ∈ effs ↔ strictEq (h.rawGet oid k) v = false) ∧
      (strictEq v v = true → shimFree h oid k = true →
        ∃ h2 effs2, set h1 (.ref oid) (.str k) v false = .ok (v, h2, effs2) ∧
          Effect.notify oid k ∉ effs2) := by
  have hde2 : objIsDestroyed h oid = false := by simp [objIsDestroyed, ho, hde]
  have hbody : setSimpleBody h oid k v =
      (v, (setWithMandatorySetter h (peekMeta h oid) oid k v).1,
        if strictEq (h.rawGet oid k) v = true then
          (setWithMandatorySetter h (peekMeta h oid) oid k v).2
        else (setWithMandatorySetter h (peekMeta h oid) oid k v).2 ++
          [Effect.notify oid k]) := by
    simp [setSimpleBody, hd, hleg, hroute]
  have hset : set h (.ref oid) (.str k) v false =
      .ok (v, (setWithMandatorySetter h (peekMeta h oid) oid k v).1,
        if strictEq (h.rawGet oid k) v = true then
          (setWithMandatorySetter h (peekMeta h oid) oid k v).2
        else (setWithMandatorySetter h (peekMeta h oid) oid k v).2 ++
          [Effect.notify oid k]) := by
    rw [set_simple_unfold h oid (.str k) v false rfl hth hde2 hkp]
    simp only [JKey.toPropertyKey]
    rw [hbody]
  refine ⟨_, _, hset, ?_, ?_⟩
  · cases hse : strictEq (h.rawGet oid k) v with
    | true => simp [notify_not_mem_sWMS h (peekMeta h oid) oid k v oid k]
    | false => simp
  · intro hvv hsf
    rcases sWMS_heap h (peekMeta h oid) oid k v o ho hsf with
      ⟨o1, ho1, hds1, hk1, hdd1, hm1, hu1, s1, hs1, hval1, hshim1⟩
    have hde3 :
        objIsDestroyed (setWithMandatorySetter h (peekMeta h oid) oid k v).1 oid =
          false := by
      simp [objIsDestroyed, ho1, hdd1, hde]
    have hpm : ∀ (h2 : Heap) (o2 : JSObj), h2.obj? oid = some o2 →
        peekMeta h2 oid = o2.metaR := by
      intro h2 o2 ho2
      simp [peekMeta, ho2]
    have hdf : ∀ h2 : Heap, descriptorFor h2 oid k =
        (match peekMeta h2 oid with
          | some m => alookup k m.descriptors
          | none => none) := fun _ => rfl
    have hd1 :
        descriptorFor (setWithMandatorySetter h (peekMeta h oid) oid k v).1 oid k =
          none := by
      have hd0 : descriptorFor h oid k = none := hd
      rw [hdf, hpm h o ho] at hd0
      rw [hdf, hpm _ o1 ho1, hm1]
      exact hd0
    have hcv1 :
        ((setWithMandatorySetter h (peekMeta h oid) oid k v).1).rawGet oid k = v := by
      simp [Heap.rawGet, ho1, hs1, hshim1, hval1]
    rcases hsb : setSimpleBody (setWithMandatorySetter h (peekMeta h oid) oid k v).1
        oid k v with ⟨rv, h2, effs2⟩
    have hrv : rv = v := by
      have hf := setSimpleBody_fst
        (setWithMandatorySetter h (peekMeta h oid) oid k v).1 oid k v
      rw [hsb] at hf
      exact hf
    refine ⟨h2, effs2, ?_, ?_⟩
    · rw [set_simple_unfold _ oid (.str k) v false rfl hth hde3 hkp]
      simp only [JKey.toPropertyKey]
      rw [hsb, hrv]
    · have hnm := notify_not_mem_setSimpleBody
        (setWithMandatorySetter h (peekMeta h oid) oid k v).1 oid k v hd1 hcv1 hvv
      rw [hsb] at hnm
      exact hnm

/-- C2 witness: the amended theorem at a concrete heap and value. -/
theorem C2_notify_iff_changed_witness :
    ∃ h1 effs, set heapW (.ref 0) (.str "x") (.num 1) false = .ok (.num 1, h1, effs) ∧
      (Effect.notify 0 "x" ∈ effs ↔ strictEq (heapW.rawGet 0 "x") (.num 1) = false) ∧
      (strictEq (.num 1) (.num 1) = true → shimFree heapW 0 "x" = true →
        ∃ h2 effs2, set h1 (.ref 0) (.str "x") (.num 1) false = .ok (.num 1, h2, effs2) ∧
          Effect.notify 0 "x" ∉ effs2) :=
  C2_notify_iff_changed heapW 0 objW "x" (.num 1) rfl rfl rfl rfl rfl rfl rfl

/-- C8 witness: concrete watched write goes through `makeEnumerable` and the Meta
Store's value-write. -/
theorem C8_setWithMandatorySetter_spec_witness :
    setWithMandatorySetter heapW (some mrW) 0 "x" (.num 4) =
      (metaWriteValue (makeEnumerable heapW 0 "x") 0 "x" (.num 4),
        [.metaWrite 0 "x" (.num 4)]) :=
  (C8_setWithMandatorySetter_spec heapW (some mrW) 0 "x" (.num 4)).1 mrW rfl (by decide)

end EmberSet
